import Mathlib

/-!
Verification of the `errors` Go library (gregwebs/errors).

Shallow embedding of the error-chain data model and the operations of the
`errors` package: error construction and wrapping (`New`, `Wrap`, `Wrapf`,
`WrapNoStack`, `AddStack`, `Wraps`), the traversal engine (`WalkDeep`,
`Find`), the structured-record merge (`SlogRecord`), the nil-likeness
check (`IsNil`), and in-place wrapping (`WrapInPlace`).

Go error values are modelled by the inductive type `GErr`; a Go `error`
interface variable (which may be nil) is `Option GErr` (`none` = the nil
interface).  Stack captures are opaque tokens (`Nat`); Go's dynamic
capability checks (type assertions) become total functions returning
`Option`/`Bool` by case analysis on the constructor, mirroring which Go
struct defines which method.  Mutation (the in-place message coalescing of
`Wrap`/`WrapNoStack` and `ErrorWrap.WrapError`) is modelled by explicit
state passing: the mutating operations also return the post-call value of
their argument.
-/

namespace GoErrors

/-- A single slog key/value attribute.  The attribute payload is opaque to
the library; we model it as a key/value string pair. -/
structure Attr where
  key : String
  val : String
deriving Repr, DecidableEq

/-- Error-chain nodes.  Constructors mirror the concrete Go types:

* `base` — an external plain error with no methods beyond `Error()`
  (`stderrors.New`, `io.EOF`, ...).
* `nilPtr`, `nilSlice`, `emptySlice`, `nilMap`, `emptyMap` — non-nil
  interface values whose underlying concrete value is nil-like
  (a typed nil pointer, a nil/empty slice or map) but whose type still
  implements `error`; `isNil` treats these as nil.
* `fundamental` — `errors.New`'s result: message plus captured stack.
* `addStack` — the `addStack`/`withStack` stack-only wrapper.
* `withMessage` — `Wrap`'s message+stack wrapper (errstack.go).
* `withMessageNoStack` — `WrapNoStack`'s stackless message wrapper.
* `structured` — `Wraps`'s structured wrapper: message, slog attributes,
  cause, own stack.
* `errorWrap` — the `*ErrorWrap` in-place-wrap holder.
* `group` — a custom error group à la `errWalkTest`: it has both an
  `Unwrap() error` method (possibly returning nil) and an
  `Errors() []error` method whose members may contain nils.
* `join` — `stderrors.Join`'s result: only `Unwrap() []error`; the Go
  member type `[]error` can hold nil entries, though `stderrors.Join`
  itself only stores non-nil members. -/
inductive GErr where
  | base (msg : String)
  | nilPtr (msg : String)
  | nilSlice (msg : String)
  | emptySlice (msg : String)
  | nilMap (msg : String)
  | emptyMap (msg : String)
  | fundamental (msg : String) (stk : Nat)
  | addStack (inner : GErr) (stk : Nat)
  | withMessage (msg : String) (inner : GErr) (stk : Nat)
  | withMessageNoStack (msg : String) (inner : GErr)
  | structured (msg : String) (attrs : List Attr) (inner : GErr) (stk : Nat)
  | errorWrap (inner : GErr)
  | group (msg : String) (cause : Option GErr) (members : List (Option GErr))
  | join (members : List (Option GErr))
deriving Repr

/-- Rendering of a structured record's attributes as text, as produced by
`structureAsText` (slog's TextHandler with message/time/level suppressed):
`k=v` pairs joined by single spaces, empty for an empty attribute list.
The text handler is an external collaborator; only the fact that it is a
function of the attributes matters for the theorems below. -/
def attrsText (attrs : List Attr) : String :=
  String.intercalate " " (attrs.map (fun a => a.key ++ "=" ++ a.val))

/-- Model of `joinZero` (structured.go): join two strings with a delimiter,
skipping empty sides. -/
def joinZero (delim s1 s2 : String) : String :=
  if s1 = "" then s2
  else if s2 = "" then s1
  else s1 ++ delim ++ s2

mutual
/-- The `Error()` method of each node.

* `base`/nil-like leaves: their own message (for the nil-like leaves this
  is whatever their concrete `Error` method would return).
* `fundamental`: the embedded `stderrors` message.
* `addStack`: promoted from the embedded error (the cause).
* `withMessage`/`withMessageNoStack`: `msg + ": " + cause.Error()`.
* `structured`: `joinZero(": ", ErrorNoUnwrap(), err.Error())` where
  `ErrorNoUnwrap()` is `joinZero(" ", msg, structureAsText(record))`.
* `group`: the custom group's own message.
* `join`: `stderrors.Join`'s newline join of the members. -/
def errMsg : GErr → String
  | .base m => m
  | .nilPtr m => m
  | .nilSlice m => m
  | .emptySlice m => m
  | .nilMap m => m
  | .emptyMap m => m
  | .fundamental m _ => m
  | .addStack e _ => errMsg e
  | .withMessage m e _ => m ++ ": " ++ errMsg e
  | .withMessageNoStack m e => m ++ ": " ++ errMsg e
  | .structured m attrs e _ => joinZero ": " (joinZero " " m (attrsText attrs)) (errMsg e)
  | .errorWrap e => errMsg e
  | .group m _ _ => m
  | .join es => String.intercalate "\n" (errMsgList es)

/-- The `Error()` strings of the members of a `join`, in order.  Go's
`joinError.Error` dereferences each member, so a nil member would panic;
such a member never arises from `stderrors.Join` (modelled by `goJoin`,
which filters nils) and is rendered here as the empty string. -/
def errMsgList : List (Option GErr) → List String
  | [] => []
  | none :: es => "" :: errMsgList es
  | some e :: es => errMsg e :: errMsgList es
end

/-- The single-cause unwrap step: `errors.Unwrap(err)` — `none` when the
node's type has no `Unwrap() error` method, or when the method returns nil.

* `fundamental` embeds the `error` interface, so no `Unwrap` is promoted.
* `addStack`, `withMessage` unwrap to the wrapped error (errstack.go:
  `withStack.Unwrap`/`addStack.Unwrap` both return the stored error).
* `withMessageNoStack`, `structured`, `errorWrap` unwrap to their inner
  error.
* `group` has an `Unwrap() error` method that returns its (possibly nil)
  cause field.
* `join` only has `Unwrap() []error`, so `errors.Unwrap` returns nil. -/
def unwrapOne : GErr → Option GErr
  | .addStack e _ => some e
  | .withMessage _ e _ => some e
  | .withMessageNoStack _ e => some e
  | .structured _ _ e _ => some e
  | .errorWrap e => some e
  | .group _ c _ => c
  | _ => none

/-- The fan-out unwrap: `Errors(err)` (group.go) returns the member list
for an `ErrorGroup` (`Errors() []error`, our `group`) or an
`Unwrap() []error` type (our `join`), and nil otherwise. -/
def unwrapGroup : GErr → List (Option GErr)
  | .group _ _ ms => ms
  | .join ms => ms
  | _ => []

/-- The `ErrorNoUnwrap()` capability (`ErrorNotUnwrapped` interface):
`some` exactly for the types that define the method.

* `fundamental`: defined as `f.Error()` (errors.go:138), i.e. its message.
  (The errstack.go-era `fundamental` omits the method; the claims cite the
  errors.go definition, and omitting it would only shrink the domain of
  the quantified theorems below.)
* `withStack`/`addStack`: the empty string (errstack.go:88).
* `withMessage`/`withMessageNoStack`: their own message.
* `structured`: `joinZero(" ", msg, structureAsText(record))`
  (structured.go:536-543).
* All other types do not define the method. -/
def errorNoUnwrap : GErr → Option String
  | .fundamental m _ => some m
  | .addStack _ _ => some ""
  | .withMessage m _ _ => some m
  | .withMessageNoStack m _ => some m
  | .structured m attrs _ _ => some (joinZero " " m (attrsText attrs))
  | _ => none

/-- Package-level `HasStack` (errstack.go:204-215): consult the
`HasStack()` marker method (`stackTraceAware`) if the type defines one;
otherwise check whether the type itself is a
`StackTracer`/`StackTraceFormatter`; it does not walk the chain.
Per modelled type:

* `fundamental`, `addStack`, `withMessage` (via the embedded `withStack`)
  and `structured` define `HasStack() bool` returning `true`;
* `withMessageNoStack.HasStack()` delegates to the package-level
  `HasStack` of its cause (errstack.go:179), hence the recursion;
* no other modelled type defines the marker or implements
  `StackTracer`/`StackTraceFormatter`, so the remaining cases are
  `false`. -/
def hasStackB : GErr → Bool
  | .fundamental _ _ => true
  | .addStack _ _ => true
  | .withMessage _ _ _ => true
  | .withMessageNoStack _ e => hasStackB e
  | .structured _ _ _ _ => true
  | _ => false

/-- Model of `isNil` (part_001:36-51) applied to a Go `error` interface value:
true for the literal nil interface and for a non-nil interface whose
underlying value is a nil pointer or a nil/empty slice or map.  All the
package's own node types are non-nil struct pointers, for which the
reflection check yields `false`.  (The Array kind, on which the Go code's
reflection call panics, is treated separately in the `IsNil` reflection
model below.) -/
def goIsNil : Option GErr → Bool
  | none => true
  | some (.nilPtr _) => true
  | some (.nilSlice _) => true
  | some (.emptySlice _) => true
  | some (.nilMap _) => true
  | some (.emptyMap _) => true
  | some _ => false

/-! Construction operations.

Stack capture (`stackfmt.NewStack()`/`callers()`) is an opaque external
service; each call site's capture is modelled by a `Nat` token passed in
as the `stk` argument. -/

/-- Model of `New` (errstack.go:12-14). -/
def goNew (msg : String) (stk : Nat) : GErr :=
  .fundamental msg stk

/-- Model of `AddStack` (errstack.go:59-67): nil-like input propagates to nil; an
input that already has a stack is returned unchanged; otherwise wrap in
an `addStack` node with a fresh capture. -/
def goAddStack (stk : Nat) : Option GErr → Option GErr
  | none => none
  | some e =>
    if goIsNil (some e) then none
    else if hasStackB e then some e
    else some (.addStack e stk)

/-- The non-nil branch of `Wrap` (errstack.go:115-122), with explicit
state passing for the in-place coalescing: returns
`(result, post-call value of the argument)`.  When the argument is a
`*withMessage`, `Wrap` mutates it — prepending `message + ": "` to its
`msg` field — and returns the same pointer, so result and post-state
coincide; otherwise the argument is untouched and a fresh
`withMessage` wrapper with its own stack capture is returned. -/
def wrapNonNil (stk : Nat) (m : String) : GErr → GErr × GErr
  | .withMessage msg c s =>
    let r := GErr.withMessage (m ++ ": " ++ msg) c s
    (r, r)
  | e => (.withMessage m e stk, e)

/-- Model of `Wrap` (errstack.go:111-123): nil-like → nil, else the non-nil
branch.  `Wrapf` (errstack.go:128-140) is the same function with
`fmt.Sprintf(format, args...)` as the message, so it is covered by
quantifying over `m`. -/
def goWrap (stk : Nat) (m : String) : Option GErr → Option GErr
  | none => none
  | some e =>
    if goIsNil (some e) then none
    else some (wrapNonNil stk m e).1

/-- The non-nil branch of `WrapNoStack` (errstack.go:150-157), with the
same state-passing convention as `wrapNonNil`: consecutive uses coalesce
by mutating the existing `*withMessageNoStack` in place. -/
def wrapNoStackNonNil (m : String) : GErr → GErr × GErr
  | .withMessageNoStack msg c =>
    let r := GErr.withMessageNoStack (m ++ ": " ++ msg) c
    (r, r)
  | e => (.withMessageNoStack m e, e)

/-- Model of `WrapNoStack` (errstack.go:146-158): nil-like → nil, else the
non-nil branch. -/
def goWrapNoStack (m : String) : Option GErr → Option GErr
  | none => none
  | some e =>
    if goIsNil (some e) then none
    else some (wrapNoStackNonNil m e).1

/-- Model of `Wraps` (structured.go `wrapsSkip`, lines 580-621): only the literal
nil interface short-circuits to nil — there is no `isNil` check; any
non-nil interface value, nil-like or not, is wrapped into a
`structuredErr` carrying the record's attributes and an own stack
capture.  (The earlier `Wraps` at structured.go:75-78 has the same
`err == nil` guard.) -/
def goWraps (stk : Nat) (m : String) (attrs : List Attr) :
    Option GErr → Option GErr
  | none => none
  | some e => some (.structured m attrs e stk)

/-- Model of `stderrors.Join`: nil members are dropped; if every member is nil the
result is the nil interface, otherwise a `joinError` of the non-nil
members.  (External stdlib collaborator of `Find`/`WalkDeep`.) -/
def goJoin (ms : List (Option GErr)) : Option GErr :=
  match ms.filterMap id with
  | [] => none
  | es => some (.join (es.map some))

/-! The traversal engine.  `WalkDeep` and `Find` recurse through
`Unwrap`/`Errors`, which the termination checker cannot see through
structurally, so the definitions use well-founded recursion on `sizeOf`
with the two lemmas below. -/

mutual
/-- Model of `WalkDeep` (group.go:35-56): depth-first traversal.  A nil
error is not visited and yields `false`; otherwise the visitor is invoked
on the node (returning `true` stops the whole walk and makes `WalkDeep`
return `true`), then the single-cause chain is walked, then each group
member in declared order. -/
def walkDeep (v : GErr → Bool) : Option GErr → Bool
  | none => false
  | some e =>
    if v e then true
    else if walkDeep v (unwrapOne e) then true
    else walkList v (unwrapGroup e)
termination_by o => sizeOf o
decreasing_by
  all_goals first
    | (cases e <;> simp [unwrapOne] <;> omega)
    | (cases e <;> simp [unwrapGroup] <;> omega)

/-- The `Go wide` loop of `WalkDeep`: walk each member in order,
stopping early on the first `true`. -/
def walkList (v : GErr → Bool) : List (Option GErr) → Bool
  | [] => false
  | o :: os =>
    if walkDeep v o then true else walkList v os
termination_by os => sizeOf os
decreasing_by
  all_goals (simp; try omega)
end

mutual
/-- The visit sequence of `walkDeep`: the node itself, then the visit
sequence of its single cause, then those of its group members in order.
This is the specification of the traversal order against which `walkDeep`
and `findD` are verified. -/
def walkOrder : Option GErr → List GErr
  | none => []
  | some e => e :: (walkOrder (unwrapOne e) ++ walkOrderList (unwrapGroup e))
termination_by o => sizeOf o
decreasing_by
  all_goals first
    | (cases e <;> simp [unwrapOne] <;> omega)
    | (cases e <;> simp [unwrapGroup] <;> omega)

/-- Concatenated visit sequences of a member list. -/
def walkOrderList : List (Option GErr) → List GErr
  | [] => []
  | o :: os => walkOrder o ++ walkOrderList os
termination_by os => sizeOf os
decreasing_by
  all_goals (simp; try omega)
end

mutual
/-- Model of `Find` (errors.go:319-329).  The Go code runs `WalkDeep`
with a closure that records the first node satisfying `t` and stops the
walk; the pure counterpart returns that first node directly, following
the exact recursion shape of `walkDeep`. -/
def findD (t : GErr → Bool) : Option GErr → Option GErr
  | none => none
  | some e =>
    if t e then some e
    else
      match findD t (unwrapOne e) with
      | some r => some r
      | none => findL t (unwrapGroup e)
termination_by o => sizeOf o
decreasing_by
  all_goals first
    | (cases e <;> simp [unwrapOne] <;> omega)
    | (cases e <;> simp [unwrapGroup] <;> omega)

/-- The member-list part of `findD`. -/
def findL (t : GErr → Bool) : List (Option GErr) → Option GErr
  | [] => none
  | o :: os =>
    match findD t o with
    | some r => some r
    | none => findL t os
termination_by os => sizeOf os
decreasing_by
  all_goals (simp; try omega)
end

/-! The structured-record merge, `SlogRecord` (structured.go:334-378).
The Go code runs `WalkDeep` with a closure over three mutable variables
(`msg`, `record`, `msgDone`) that always returns false (never stops);
the embedding threads that state through the same recursion shape. -/

/-- A `slog.Record` as far as the library observes it: a message and an
ordered list of attributes.  `Clone` is value copy; `AddAttrs` appends. -/
structure SRecord where
  message : String
  attrs : List Attr
deriving Repr, DecidableEq

/-- The `HasSlogRecord` capability (`GetSlogRecord`): among the modelled
types only `structuredErr` defines it, returning the record built at
`Wraps` time — its message is the `Wraps` message and its attributes are
the merged variadic arguments (structured.go:592-613). -/
def getSlogRecord : GErr → Option SRecord
  | .structured m attrs _ _ => some ⟨m, attrs⟩
  | _ => none

/-- The `slogMsg` helper (structured.go:397-407): the `SlogMessager`
message if defined, else the record message of a `HasSlogRecord`, else
the empty string.  `structuredErr` defines `SlogMsg()` returning its
`msg` field; no other modelled type has either capability. -/
def slogMsgF : GErr → String
  | .structured m _ _ _ => m
  | _ => ""

/-- The mutable state of `SlogRecord`'s visitor closure. -/
structure SlogState where
  msg : String
  msgDone : Bool
  record : Option SRecord
deriving Repr

/-- One visit of `SlogRecord`'s closure (structured.go:338-372):
first the message chain — until a node that understands none of
`SlogMessager`/`ErrorNotUnwrapped` is reached, collect the node's slog
message, else its `ErrorNoUnwrap()`, else (terminally) its full
`Error()` — then the record merge: clone the first record found, append
the attributes of every further one. -/
def slogVisit (st : SlogState) (e : GErr) : SlogState :=
  let st1 :=
    if st.msgDone then st
    else
      let next :=
        if slogMsgF e ≠ "" then (slogMsgF e, false)
        else
          match errorNoUnwrap e with
          | some nu => (nu, false)
          | none => (errMsg e, true)
      { st with msg := joinZero ": " st.msg next.1, msgDone := next.2 }
  match getSlogRecord e with
  | none => st1
  | some r =>
    match st1.record with
    | none => { st1 with record := some r }
    | some acc => { st1 with record := some ⟨acc.message, acc.attrs ++ r.attrs⟩ }

mutual
/-- The state-threaded walk underlying `SlogRecord`: same visit order as
`walkDeep`, with a visitor that never stops. -/
def slogWalk : SlogState → Option GErr → SlogState
  | st, none => st
  | st, some e =>
    slogWalkL (slogWalk (slogVisit st e) (unwrapOne e)) (unwrapGroup e)
termination_by _ o => sizeOf o
decreasing_by
  all_goals first
    | (cases e <;> simp [unwrapOne] <;> omega)
    | (cases e <;> simp [unwrapGroup] <;> omega)

/-- The member-list part of `slogWalk`. -/
def slogWalkL : SlogState → List (Option GErr) → SlogState
  | st, [] => st
  | st, o :: os => slogWalkL (slogWalk st o) os
termination_by _ os => sizeOf os
decreasing_by
  all_goals (simp; try omega)
end

/-- Model of `SlogRecord` (structured.go:334-378): walk the tree
accumulating the message chain and the merged record; if any record was
found, overwrite its message with the accumulated message chain. -/
def slogRecordF (o : Option GErr) : Option SRecord :=
  let st := slogWalk ⟨"", false, none⟩ o
  st.record.map (fun r => { r with message := st.msg })

/-- Attribute count of an optional record. -/
def recLen : Option SRecord → Nat
  | none => 0
  | some r => r.attrs.length

/-- Attribute-count contribution of one node: the size of its own record
if it provides one. -/
def recContrib (e : GErr) : Nat := recLen (getSlogRecord e)

/-! The nil-likeness check `IsNil` (part_007:399-414), modelled over the
reflective shape of the boxed value.  `reflect.Value.IsNil` is only
defined for chan, func, interface, map, pointer and slice values and
panics otherwise — in particular on array values; panics are modelled by
`Except String`. -/

/-- The reflective view of a non-nil `error` interface value: the
`reflect.Kind` of the dynamic value together with the data the `isNil`
code inspects (nil-ness for nilable kinds, length for
slices/arrays/maps).  `other` stands for every remaining kind (struct,
int, string, ...). -/
inductive RVal where
  | ptr (isNilV : Bool)
  | unsafePointer (isNilV : Bool)
  | iface (isNilV : Bool)
  | slice (isNilV : Bool) (len : Nat)
  | array (len : Nat)
  | mapV (isNilV : Bool) (len : Nat)
  | other
deriving Repr, DecidableEq

/-- Model of `reflect.Value.IsNil`: defined for pointer, unsafe-pointer,
interface, slice and map kinds; panics (`Except.error`) on array and
any other kind. -/
def reflectIsNil : RVal → Except String Bool
  | .ptr b => .ok b
  | .unsafePointer b => .ok b
  | .iface b => .ok b
  | .slice b _ => .ok b
  | .mapV b _ => .ok b
  | .array _ => .error "reflect: call of reflect.Value.IsNil on array Value"
  | .other => .error "reflect: call of reflect.Value.IsNil on this Value"

/-- Model of `reflect.Value.Len` for the kinds `isNil` can reach. -/
def reflectLen : RVal → Except String Nat
  | .slice _ n => .ok n
  | .array n => .ok n
  | .mapV _ n => .ok n
  | _ => .error "reflect: call of reflect.Value.Len on this Value"

/-- Model of `IsNil` (part_007:399-414): literal nil is nil; otherwise
switch on the reflective kind: pointer/unsafe-pointer/interface kinds
return `v.IsNil()`; slice/array/map kinds return
`v.IsNil() || v.Len() == 0` (left to right, short-circuit); all other
kinds return false.  The `Except` propagates the panic that
`reflect.Value.IsNil` raises on an array value. -/
def goIsNilReflect : Option RVal → Except String Bool
  | none => .ok true
  | some v =>
    match v with
    | .ptr _ | .unsafePointer _ | .iface _ => reflectIsNil v
    | .slice _ _ | .array _ | .mapV _ _ => do
      let b ← reflectIsNil v
      if b then pure true
      else do
        let n ← reflectLen v
        pure (n == 0)
    | .other => .ok false

/-! In-place wrapping: `WrapInPlace` (errors.go:386-398),
`ErrorWrap.WrapError` (errors.go:417-419).  `WrapInPlace` locates an
`ErrorWrapper` in the chain with `errors.As` semantics: check the node's
concrete type, else follow `Unwrap() error` if the type has that method
(stopping if it returns nil), else try each non-nil member of
`Unwrap() []error` in order.  Among the modelled types only `*ErrorWrap`
implements `ErrorWrapper`.  `WrapError` mutates the holder's inner error
in place; the embedding returns the rebuilt tree (the post-call state of
the argument), `none` when no `ErrorWrapper` was found. -/

mutual
/-- Locate the first `ErrorWrapper` in `errors.As` order and apply
`WrapError f` to it: the holder's inner error is replaced by `f` of it,
everything else is unchanged.  Returns `none` iff no `ErrorWrapper` is
reachable. -/
def asWrapErr (f : GErr → GErr) : GErr → Option GErr
  | .errorWrap inner => some (.errorWrap (f inner))
  | .addStack c s => (asWrapErr f c).map (fun r => .addStack r s)
  | .withMessage m c s => (asWrapErr f c).map (fun r => .withMessage m r s)
  | .withMessageNoStack m c =>
    (asWrapErr f c).map (fun r => .withMessageNoStack m r)
  | .structured m a c s => (asWrapErr f c).map (fun r => .structured m a r s)
  | .group m c ms =>
    match c with
    | none => none
    | some c0 => (asWrapErr f c0).map (fun r => .group m (some r) ms)
  | .join ms => (asWrapErrL f ms).map .join
  | _ => none

/-- The `Unwrap() []error` loop of `errors.As`: try each non-nil member
in order, rebuilding the list around the first success. -/
def asWrapErrL (f : GErr → GErr) : List (Option GErr) → Option (List (Option GErr))
  | [] => none
  | none :: os => (asWrapErrL f os).map (fun rs => none :: rs)
  | some e :: os =>
    match asWrapErr f e with
    | some r => some (some r :: os)
    | none => (asWrapErrL f os).map (fun rs => some e :: rs)
end

/-- Model of `WrapInPlace` (errors.go:386-398): nil input → false with
nothing changed; otherwise locate an `ErrorWrapper` via `AsType`
(`errors.As`) and wrap in place, returning whether it happened, paired
with the post-call state of the argument. -/
def goWrapInPlace (f : GErr → GErr) : Option GErr → Bool × Option GErr
  | none => (false, none)
  | some e =>
    match asWrapErr f e with
    | some e2 => (true, some e2)
    | none => (false, some e)

mutual
/-- Whether the chain contains an `ErrorWrapper` reachable in
`errors.As` order. -/
def hasEW : GErr → Bool
  | .errorWrap _ => true
  | .addStack c _ => hasEW c
  | .withMessage _ c _ => hasEW c
  | .withMessageNoStack _ c => hasEW c
  | .structured _ _ c _ => hasEW c
  | .group _ c _ =>
    match c with
    | none => false
    | some c0 => hasEW c0
  | .join ms => hasEWL ms
  | _ => false

/-- The member-list part of `hasEW`. -/
def hasEWL : List (Option GErr) → Bool
  | [] => false
  | none :: os => hasEWL os
  | some e :: os => hasEW e || hasEWL os
end

mutual
/-- The inner error held by the first `ErrorWrapper` in `errors.As`
order, if any. -/
def firstEWInner : GErr → Option GErr
  | .errorWrap inner => some inner
  | .addStack c _ => firstEWInner c
  | .withMessage _ c _ => firstEWInner c
  | .withMessageNoStack _ c => firstEWInner c
  | .structured _ _ c _ => firstEWInner c
  | .group _ c _ =>
    match c with
    | none => none
    | some c0 => firstEWInner c0
  | .join ms => firstEWInnerL ms
  | _ => none

/-- The member-list part of `firstEWInner`. -/
def firstEWInnerL : List (Option GErr) → Option GErr
  | [] => none
  | none :: os => firstEWInnerL os
  | some e :: os =>
    match firstEWInner e with
    | some r => some r
    | none => firstEWInnerL os
end

/-- Constructor tag of a node, used to state that an operation does not
change the concrete (outer) type of a value. -/
def ctorTag : GErr → Nat
  | .base _ => 0
  | .nilPtr _ => 1
  | .nilSlice _ => 2
  | .emptySlice _ => 3
  | .nilMap _ => 4
  | .emptyMap _ => 5
  | .fundamental _ _ => 6
  | .addStack _ _ => 7
  | .withMessage _ _ _ => 8
  | .withMessageNoStack _ _ => 9
  | .structured _ _ _ _ => 10
  | .errorWrap _ => 11
  | .group _ _ _ => 12
  | .join _ => 13

/-- The type assertion `err.(*withMessage)` performed by `Wrap`/`Wrapf`
(errstack.go:115,132). -/
def isWithMessage : GErr → Bool
  | .withMessage _ _ _ => true
  | _ => false

/-- The type assertion `err.(*withMessageNoStack)` performed by
`WrapNoStack` (errstack.go:150). -/
def isWithMessageNoStack : GErr → Bool
  | .withMessageNoStack _ _ => true
  | _ => false

/-- The display string of a node's cause, taken as empty when the node
has no cause. -/
def causeMsg (e : GErr) : String :=
  match unwrapOne e with
  | none => ""
  | some c => errMsg c

/-- Side condition under which the skip-empty join reproduces `Error()`:
the plain message wrappers build `msg + ": " + cause.Error()`
unconditionally, so for them both sides must be nonempty; every other
node satisfies the join property outright. -/
def msgJoinOK : GErr → Bool
  | .withMessage m c _ => (m != "") && (errMsg c != "")
  | .withMessageNoStack m c => (m != "") && (errMsg c != "")
  | _ => true

/-! Theorems: properties of the embedded operations. -/

theorem sizeOf_unwrapOne_lt (e : GErr) : sizeOf (unwrapOne e) < sizeOf (some e) := by
  cases e <;> simp [unwrapOne] <;> omega

theorem sizeOf_unwrapGroup_lt (e : GErr) : sizeOf (unwrapGroup e) < sizeOf (some e) := by
  cases e <;> simp [unwrapGroup] <;> omega

/-! Correspondence of the traversal functions with the visit sequence
`walkOrder`, proved by strong induction on `sizeOf`. -/

theorem walk_any_aux (v : GErr → Bool) :
    ∀ n : Nat,
      (∀ o : Option GErr, sizeOf o < n → walkDeep v o = (walkOrder o).any v) ∧
      (∀ os : List (Option GErr), sizeOf os < n →
        walkList v os = (walkOrderList os).any v) := by
  intro n
  induction n with
  | zero => exact ⟨fun o h => absurd h (by omega), fun os h => absurd h (by omega)⟩
  | succ n ih =>
    refine ⟨fun o ho => ?_, fun os hos => ?_⟩
    · match o with
      | none => simp [walkDeep, walkOrder]
      | some e =>
        have h1 := ih.1 (unwrapOne e)
          (by have hlt := sizeOf_unwrapOne_lt e; simp at hlt ho; omega)
        have h2 := ih.2 (unwrapGroup e)
          (by have hlt := sizeOf_unwrapGroup_lt e; simp at hlt ho; omega)
        rw [walkDeep, walkOrder, h1, h2]
        simp [List.any_append, List.any_eq, List.mem_cons, List.mem_append, exists_eq_or_imp, or_and_right, exists_or, Bool.decide_or, Bool.or_assoc]
    · match os with
      | [] => simp [walkList, walkOrderList]
      | o :: rest =>
        have h1 := ih.1 o (by simp at hos; omega)
        have h2 := ih.2 rest (by simp at hos; omega)
        rw [walkList, walkOrderList, h1, h2]
        simp [List.any_append, List.any_eq, List.mem_append, or_and_right, exists_or, Bool.decide_or]

/-- The walk visits exactly the nodes of `walkOrder`, in order, with
early stop: `walkDeep` returns true iff some visited node satisfies the
visitor. -/
theorem walkDeep_eq_any (v : GErr → Bool) (o : Option GErr) :
    walkDeep v o = (walkOrder o).any v :=
  (walk_any_aux v (sizeOf o + 1)).1 o (by omega)

theorem walkList_eq_any (v : GErr → Bool) (os : List (Option GErr)) :
    walkList v os = (walkOrderList os).any v :=
  (walk_any_aux v (sizeOf os + 1)).2 os (by omega)

theorem find_aux (t : GErr → Bool) :
    ∀ n : Nat,
      (∀ o : Option GErr, sizeOf o < n → findD t o = (walkOrder o).find? t) ∧
      (∀ os : List (Option GErr), sizeOf os < n →
        findL t os = (walkOrderList os).find? t) := by
  intro n
  induction n with
  | zero => exact ⟨fun o h => absurd h (by omega), fun os h => absurd h (by omega)⟩
  | succ n ih =>
    refine ⟨fun o ho => ?_, fun os hos => ?_⟩
    · match o with
      | none => simp [findD, walkOrder]
      | some e =>
        have h1 := ih.1 (unwrapOne e)
          (by have hlt := sizeOf_unwrapOne_lt e; simp at hlt ho; omega)
        have h2 := ih.2 (unwrapGroup e)
          (by have hlt := sizeOf_unwrapGroup_lt e; simp at hlt ho; omega)
        rw [findD, walkOrder, h1, h2, List.find?_cons, List.find?_append]
        cases t e <;>
          cases hb : (walkOrder (unwrapOne e)).find? t <;> simp [hb, Option.or]
    · match os with
      | [] => simp [findL, walkOrderList]
      | o :: rest =>
        have h1 := ih.1 o (by simp at hos; omega)
        have h2 := ih.2 rest (by simp at hos; omega)
        rw [findL, walkOrderList, h1, h2, List.find?_append]
        cases hb : (walkOrder o).find? t <;> simp [hb, Option.or]

/-- The `Find` of the library returns the first node of the visit
sequence satisfying the test. -/
theorem findD_eq_find? (t : GErr → Bool) (o : Option GErr) :
    findD t o = (walkOrder o).find? t :=
  (find_aux t (sizeOf o + 1)).1 o (by omega)

theorem findL_eq_find? (t : GErr → Bool) (os : List (Option GErr)) :
    findL t os = (walkOrderList os).find? t :=
  (find_aux t (sizeOf os + 1)).2 os (by omega)

theorem slogWalk_aux :
    ∀ n : Nat,
      (∀ (o : Option GErr) (st : SlogState), sizeOf o < n →
        slogWalk st o = (walkOrder o).foldl slogVisit st) ∧
      (∀ (os : List (Option GErr)) (st : SlogState), sizeOf os < n →
        slogWalkL st os = (walkOrderList os).foldl slogVisit st) := by
  intro n
  induction n with
  | zero =>
    exact ⟨fun o st h => absurd h (by omega), fun os st h => absurd h (by omega)⟩
  | succ n ih =>
    refine ⟨fun o st ho => ?_, fun os st hos => ?_⟩
    · match o with
      | none => simp [slogWalk, walkOrder]
      | some e =>
        have h1 := ih.1 (unwrapOne e) (slogVisit st e)
          (by have hlt := sizeOf_unwrapOne_lt e; simp at hlt ho; omega)
        have h2 := ih.2 (unwrapGroup e)
          ((walkOrder (unwrapOne e)).foldl slogVisit (slogVisit st e))
          (by have hlt := sizeOf_unwrapGroup_lt e; simp at hlt ho; omega)
        rw [slogWalk, walkOrder, h1, h2]
        simp [List.foldl_append]
    · match os with
      | [] => simp [slogWalkL, walkOrderList]
      | o :: rest =>
        have h1 := ih.1 o st (by simp at hos; omega)
        have h2 := ih.2 rest ((walkOrder o).foldl slogVisit st)
          (by simp at hos; omega)
        rw [slogWalkL, walkOrderList, h1, h2]
        simp [List.foldl_append]

/-- The state-threaded walk is the fold of the visitor over the visit
sequence. -/
theorem slogWalk_eq_foldl (st : SlogState) (o : Option GErr) :
    slogWalk st o = (walkOrder o).foldl slogVisit st :=
  (slogWalk_aux (sizeOf o + 1)).1 o st (by omega)

/-- One visitor step: the record accumulator gains exactly the node's own
contribution, and becomes present as soon as a provider is visited. -/
theorem slogVisit_record (st : SlogState) (e : GErr) :
    recLen (slogVisit st e).record = recLen st.record + recContrib e ∧
    (slogVisit st e).record.isSome
      = (st.record.isSome || (getSlogRecord e).isSome) := by
  unfold slogVisit recContrib
  cases hr : getSlogRecord e <;> cases hst : st.record <;>
      cases hm : st.msgDone <;>
    simp [hr, hst, hm, recLen]

/-- Folding the visitor over any node list: attribute counts add up, and
a record is present iff the initial state had one or some node provides
one. -/
theorem foldl_slogVisit_record (l : List GErr) :
    ∀ st : SlogState,
      recLen ((l.foldl slogVisit st).record)
          = recLen st.record + (l.map recContrib).sum ∧
      ((l.foldl slogVisit st).record).isSome
          = (st.record.isSome || l.any (fun e => (getSlogRecord e).isSome)) := by
  induction l with
  | nil => intro st; simp
  | cons e rest ih =>
    intro st
    have hv := slogVisit_record st e
    have hr := ih (slogVisit st e)
    constructor
    · rw [List.foldl_cons, hr.1, hv.1]; simp; omega
    · rw [List.foldl_cons, hr.2, hv.2]
      cases st.record.isSome <;> simp [List.any_eq, Bool.decide_or]

mutual
/-- Specification of `asWrapErr`: it succeeds exactly when an
`ErrorWrapper` is reachable, it never changes the outer constructor, and
it replaces exactly the first reachable holder's inner error by `f` of
it. -/
theorem asWrapErr_spec (f : GErr → GErr) :
    ∀ e : GErr,
      (asWrapErr f e).isSome = hasEW e ∧
      (firstEWInner e).isSome = hasEW e ∧
      (∀ e2, asWrapErr f e = some e2 →
        ctorTag e2 = ctorTag e ∧ firstEWInner e2 = (firstEWInner e).map f)
  | .base m => by simp [asWrapErr, hasEW, firstEWInner]
  | .nilPtr m => by simp [asWrapErr, hasEW, firstEWInner]
  | .nilSlice m => by simp [asWrapErr, hasEW, firstEWInner]
  | .emptySlice m => by simp [asWrapErr, hasEW, firstEWInner]
  | .nilMap m => by simp [asWrapErr, hasEW, firstEWInner]
  | .emptyMap m => by simp [asWrapErr, hasEW, firstEWInner]
  | .fundamental m s => by simp [asWrapErr, hasEW, firstEWInner]
  | .errorWrap inner => by
    simp [asWrapErr, hasEW, ctorTag, firstEWInner]
  | .addStack c s => by
    have ih := asWrapErr_spec f c
    refine ⟨?_, ?_, ?_⟩
    · simp [asWrapErr, hasEW, ih.1]
    · simp [firstEWInner, hasEW, ih.2.1]
    · intro e2 h2
      simp [asWrapErr] at h2
      obtain ⟨r, hr, rfl⟩ := h2
      have := ih.2.2 r hr
      simp [ctorTag, firstEWInner, this.1, this.2]
  | .withMessage m c s => by
    have ih := asWrapErr_spec f c
    refine ⟨?_, ?_, ?_⟩
    · simp [asWrapErr, hasEW, ih.1]
    · simp [firstEWInner, hasEW, ih.2.1]
    · intro e2 h2
      simp [asWrapErr] at h2
      obtain ⟨r, hr, rfl⟩ := h2
      have := ih.2.2 r hr
      simp [ctorTag, firstEWInner, this.1, this.2]
  | .withMessageNoStack m c => by
    have ih := asWrapErr_spec f c
    refine ⟨?_, ?_, ?_⟩
    · simp [asWrapErr, hasEW, ih.1]
    · simp [firstEWInner, hasEW, ih.2.1]
    · intro e2 h2
      simp [asWrapErr] at h2
      obtain ⟨r, hr, rfl⟩ := h2
      have := ih.2.2 r hr
      simp [ctorTag, firstEWInner, this.1, this.2]
  | .structured m a c s => by
    have ih := asWrapErr_spec f c
    refine ⟨?_, ?_, ?_⟩
    · simp [asWrapErr, hasEW, ih.1]
    · simp [firstEWInner, hasEW, ih.2.1]
    · intro e2 h2
      simp [asWrapErr] at h2
      obtain ⟨r, hr, rfl⟩ := h2
      have := ih.2.2 r hr
      simp [ctorTag, firstEWInner, this.1, this.2]
  | .group m none ms => by
    simp [asWrapErr, hasEW, firstEWInner]
  | .group m (some c0) ms => by
    have ih := asWrapErr_spec f c0
    refine ⟨?_, ?_, ?_⟩
    · simp [asWrapErr, hasEW, ih.1]
    · simp [firstEWInner, hasEW, ih.2.1]
    · intro e2 h2
      simp [asWrapErr] at h2
      obtain ⟨r, hr, rfl⟩ := h2
      have := ih.2.2 r hr
      simp [ctorTag, firstEWInner, this.1, this.2]
  | .join ms => by
    have ih := asWrapErrL_spec f ms
    refine ⟨?_, ?_, ?_⟩
    · simp [asWrapErr, hasEW, ih.1]
    · simp [firstEWInner, hasEW, ih.2.1]
    · intro e2 h2
      simp [asWrapErr] at h2
      obtain ⟨rs, hrs, rfl⟩ := h2
      have := ih.2.2 rs hrs
      simp [ctorTag, firstEWInner, this]

/-- The member-list part of `asWrapErr_spec`. -/
theorem asWrapErrL_spec (f : GErr → GErr) :
    ∀ ms : List (Option GErr),
      (asWrapErrL f ms).isSome = hasEWL ms ∧
      (firstEWInnerL ms).isSome = hasEWL ms ∧
      (∀ rs, asWrapErrL f ms = some rs →
        firstEWInnerL rs = (firstEWInnerL ms).map f)
  | [] => by simp [asWrapErrL, hasEWL, firstEWInnerL]
  | none :: os => by
    have ih := asWrapErrL_spec f os
    refine ⟨?_, ?_, ?_⟩
    · simp [asWrapErrL, hasEWL, ih.1]
    · simp [firstEWInnerL, hasEWL, ih.2.1]
    · intro rs hrs
      simp [asWrapErrL] at hrs
      obtain ⟨rs0, hrs0, rfl⟩ := hrs
      simp [firstEWInnerL, ih.2.2 rs0 hrs0]
  | some e :: os => by
    have ihe := asWrapErr_spec f e
    have ih := asWrapErrL_spec f os
    refine ⟨?_, ?_, ?_⟩
    · rw [asWrapErrL]
      cases h : asWrapErr f e with
      | some r => simp [hasEWL, ← ihe.1, h]
      | none => simp [hasEWL, ← ihe.1, h, ih.1]
    · rw [firstEWInnerL]
      cases h : firstEWInner e with
      | some w => simp [hasEWL, ← ihe.2.1, h]
      | none => simp [hasEWL, ← ihe.2.1, h, ih.2.1]
    · intro rs hrs
      rw [asWrapErrL] at hrs
      cases h : asWrapErr f e with
      | some r =>
        rw [h] at hrs
        cases hrs
        have hr := ihe.2.2 r h
        have hsome : (firstEWInner e).isSome = true := by
          rw [ihe.2.1, ← ihe.1, h]; rfl
        obtain ⟨w, hw⟩ := Option.isSome_iff_exists.mp hsome
        simp [firstEWInnerL, hr.2, hw]
      | none =>
        rw [h] at hrs
        simp at hrs
        obtain ⟨rs0, hrs0, rfl⟩ := hrs
        have hnone : firstEWInner e = none := by
          have : (firstEWInner e).isSome = false := by
            rw [ihe.2.1, ← ihe.1, h]; rfl
          exact Option.not_isSome_iff_eq_none.mp (by simp [this])
        simp [firstEWInnerL, hnone, ih.2.2 rs0 hrs0]
end


/-! Claim theorems. -/

/-- C1, counterexample: for `e` already a `*withMessage` (here
`Wrap(New-like "x", "a")`), `Wrap(e, "b")` coalesces in place, so
`Unwrap(Wrap(e, m))` is `e`'s original cause — its display string `"x"` —
and not `e.Error() = "a: x"`.  This refutes
`Unwrap(Wrap(e, m)).Error() == e.Error()` as universally stated. -/
theorem c1_counterexample :
    ¬(((goWrap 1 "b" (some (GErr.withMessage "a" (.base "x") 0))).bind
          unwrapOne).map errMsg
        = some (errMsg (GErr.withMessage "a" (.base "x") 0))) := by decide

/-- C1 (amended): for every non-nil-like `e` and message `m`,
`Wrap(e, m).Error() = m + ": " + e.Error()` (with `e.Error()` the
pre-call string); and when `e` is not itself a `*withMessage` (so no
in-place coalescing fires), `Unwrap(Wrap(e, m))` is `e` itself. -/
theorem c1_wrap_display_and_unwrap (e : GErr) (m : String) (stk : Nat)
    (hnil : goIsNil (some e) = false) :
    (goWrap stk m (some e)).map errMsg = some (m ++ ": " ++ errMsg e) ∧
    (isWithMessage e = false →
      (goWrap stk m (some e)).bind unwrapOne = some e) := by
  cases e <;>
    simp_all [goWrap, goIsNil, wrapNonNil, errMsg, unwrapOne, isWithMessage,
      String.append_assoc]

/-- Witness for `c1_wrap_display_and_unwrap` at a concrete input. -/
theorem c1_wrap_display_and_unwrap_witness :
    goIsNil (some (GErr.base "x")) = false ∧
    ((goWrap 0 "b" (some (GErr.base "x"))).map errMsg
        = some ("b" ++ ": " ++ errMsg (GErr.base "x")) ∧
      (isWithMessage (GErr.base "x") = false →
        (goWrap 0 "b" (some (GErr.base "x"))).bind unwrapOne
          = some (GErr.base "x"))) :=
  ⟨by decide, c1_wrap_display_and_unwrap (GErr.base "x") "b" 0 (by decide)⟩

/-- C2, counterexample: `Wraps` checks only the literal nil interface, so
on a boxed nil pointer — which `isNil` classifies as nil-like — it still
constructs a wrapper instead of propagating nil. -/
theorem c2_counterexample :
    (goWraps 0 "m" [] (some (.nilPtr "np"))).isSome = true ∧
      goIsNil (some (.nilPtr "np")) = true := by decide

/-- C2 (amended): `Wrap`, `Wrapf`, `WrapNoStack` and `AddStack` map
exactly the nil-like inputs (literal nil, boxed nil pointer, nil/empty
slice or map) to nil; `Wraps` maps only the literal nil interface to
nil. -/
theorem c2_nil_propagation (e : Option GErr) (stk : Nat) (m : String)
    (attrs : List Attr) :
    (goWrap stk m e = none ↔ goIsNil e = true) ∧
    (goWrapNoStack m e = none ↔ goIsNil e = true) ∧
    (goAddStack stk e = none ↔ goIsNil e = true) ∧
    (goWraps stk m attrs e = none ↔ e = none) := by
  cases e with
  | none => simp [goWrap, goWrapNoStack, goAddStack, goWraps, goIsNil]
  | some v =>
    cases v <;>
      simp [goWrap, goWrapNoStack, goAddStack, goWraps, goIsNil,
        wrapNonNil, wrapNoStackNonNil, hasStackB, ite_eq_iff]

/-- C3, counterexample: for a nil-like but non-nil interface input (a
boxed nil pointer), `AddStack` returns the literal nil interface, not
the input unchanged. -/
theorem c3_counterexample :
    (goAddStack 0 (some (.nilPtr "np"))).isNone = true ∧
      (some (GErr.nilPtr "np")).isNone = false ∧
      goIsNil (some (.nilPtr "np")) = true := by decide

/-- C3 (amended): `AddStack` returns nil on nil-like input (which equals
the input only for the literal nil interface); returns the input
unchanged when it already has a stack; otherwise adds exactly one
stack-capturing wrapper; and it is idempotent for every input — the
second application changes nothing and captures no second stack,
whatever its own capture token would be. -/
theorem c3_addStack_idempotent (s1 s2 : Nat) (e : Option GErr) (v : GErr) :
    (goIsNil e = true → goAddStack s1 e = none) ∧
    (goIsNil (some v) = false → hasStackB v = true →
      goAddStack s1 (some v) = some v) ∧
    (goIsNil (some v) = false → hasStackB v = false →
      goAddStack s1 (some v) = some (.addStack v s1)) ∧
    goAddStack s2 (goAddStack s1 e) = goAddStack s1 e := by
  refine ⟨?_, ?_, ?_, ?_⟩
  · intro h
    cases e with
    | none => rfl
    | some v => simp [goAddStack, h]
  · intro h1 h2; simp [goAddStack, h1, h2]
  · intro h1 h2; simp [goAddStack, h1, h2]
  · cases e with
    | none => rfl
    | some w =>
      by_cases hn : goIsNil (some w) = true
      · simp [goAddStack, hn]
      · rw [Bool.not_eq_true] at hn
        cases hs : hasStackB w
        · have h1 : goAddStack s1 (some w) = some (.addStack w s1) := by
            simp [goAddStack, hn, hs]
          rw [h1]
          simp [goAddStack, goIsNil, hasStackB]
        · have h1 : goAddStack s1 (some w) = some w := by
            simp [goAddStack, hn, hs]
          rw [h1]
          simp [goAddStack, hn, hs]

/-- Witness for `c3_addStack_idempotent` at a concrete input. -/
theorem c3_addStack_idempotent_witness :
    goIsNil (some (GErr.fundamental "f" 5)) = false ∧
    hasStackB (GErr.fundamental "f" 5) = true ∧
    goAddStack 0 (some (GErr.fundamental "f" 5))
      = some (GErr.fundamental "f" 5) :=
  ⟨by decide, by decide,
    (c3_addStack_idempotent 0 1 (some (GErr.fundamental "f" 5))
      (GErr.fundamental "f" 5)).2.1 (by decide) (by decide)⟩

/-- C7, counterexample: `Wrap` on a `*withMessage` input mutates the
input in place — its display string changes from `"a: x"` to
`"b: a: x"` — refuting that wrapping leaves the wrapped error
unchanged. -/
theorem c7_counterexample :
    errMsg ((wrapNonNil 1 "b" (GErr.withMessage "a" (.base "x") 0)).2)
      ≠ errMsg (GErr.withMessage "a" (.base "x") 0) := by decide

/-- C7 (amended): `Wrap`/`Wrapf` leave their argument unchanged unless it
is itself a `*withMessage`, and `WrapNoStack` unless it is a
`*withMessageNoStack`; in those cases the new message is prepended to
the existing wrapper in place (the result being the mutated argument
itself). -/
theorem c7_wrap_leaves_input (e : GErr) (m : String) (stk : Nat) :
    (isWithMessage e = false → (wrapNonNil stk m e).2 = e) ∧
    (isWithMessageNoStack e = false → (wrapNoStackNonNil m e).2 = e) := by
  constructor <;> intro h <;> cases e <;>
    simp_all [wrapNonNil, wrapNoStackNonNil, isWithMessage,
      isWithMessageNoStack]

/-- Witness for `c7_wrap_leaves_input` at a concrete input. -/
theorem c7_wrap_leaves_input_witness :
    isWithMessage (GErr.base "x") = false ∧
    (wrapNonNil 3 "b" (GErr.base "x")).2 = GErr.base "x" :=
  ⟨by decide,
    (c7_wrap_leaves_input (GErr.base "x") "b" 3).1 (by decide)⟩

/-- With an empty right side the skip-empty join returns the left side. -/
theorem joinZero_empty_right (d a : String) : joinZero d a "" = a := by
  by_cases h : a = "" <;> simp [joinZero, h]

/-- With an empty left side the skip-empty join returns the right side. -/
theorem joinZero_empty_left (d b : String) : joinZero d "" b = b := by
  simp [joinZero]

/-- The skip-empty join always extends its left side. -/
theorem joinZero_exists_suffix (d a b : String) :
    ∃ t, joinZero d a b = a ++ t := by
  by_cases h1 : a = ""
  · exact ⟨b, by simp [joinZero, h1]⟩
  · by_cases h2 : b = ""
    · exact ⟨"", by simp [joinZero, h1, h2]⟩
    · exact ⟨d ++ b, by simp [joinZero, h1, h2, String.append_assoc]⟩

/-- C6, counterexample: `Wrap(e, "")` produces a `withMessage` node whose
no-unwrap message is `""` but whose `Error()` is `": " + cause`, which
the skip-empty join of `""` with the cause's string cannot reproduce. -/
theorem c6_counterexample :
    errorNoUnwrap (GErr.withMessage "" (.base "x") 0) = some "" ∧
    joinZero ": " "" (causeMsg (GErr.withMessage "" (.base "x") 0))
      ≠ errMsg (GErr.withMessage "" (.base "x") 0) := by decide

/-- C6 (amended): whenever a node defines a no-unwrap message, that
message is a prefix of the node's `Error()`; and joining it with the
cause's `Error()` by `": "` skipping empty sides reproduces `Error()`
exactly, except for the plain message wrappers when their message or
their cause's display string is empty (they concatenate with `": "`
unconditionally). -/
theorem c6_noUnwrap_message (e : GErr) (m : String)
    (h : errorNoUnwrap e = some m) :
    (∃ t, errMsg e = m ++ t) ∧
    (msgJoinOK e = true → joinZero ": " m (causeMsg e) = errMsg e) := by
  cases e with
  | fundamental msg s =>
    simp [errorNoUnwrap] at h
    subst h
    exact ⟨⟨"", by simp [errMsg]⟩, fun _ => by
      simp [causeMsg, unwrapOne, errMsg, joinZero_empty_right]⟩
  | addStack c s =>
    simp [errorNoUnwrap] at h
    subst h
    exact ⟨⟨errMsg c, by simp [errMsg]⟩, fun _ => by
      simp [causeMsg, unwrapOne, errMsg, joinZero_empty_left]⟩
  | withMessage msg c s =>
    simp [errorNoUnwrap] at h
    subst h
    refine ⟨⟨": " ++ errMsg c, by simp [errMsg, String.append_assoc]⟩,
      fun hok => ?_⟩
    simp [msgJoinOK] at hok
    simp [causeMsg, unwrapOne, errMsg, joinZero, hok.1, hok.2]
  | withMessageNoStack msg c =>
    simp [errorNoUnwrap] at h
    subst h
    refine ⟨⟨": " ++ errMsg c, by simp [errMsg, String.append_assoc]⟩,
      fun hok => ?_⟩
    simp [msgJoinOK] at hok
    simp [causeMsg, unwrapOne, errMsg, joinZero, hok.1, hok.2]
  | structured msg attrs c s =>
    simp [errorNoUnwrap] at h
    subst h
    refine ⟨?_, fun _ => by simp [causeMsg, unwrapOne, errMsg]⟩
    have := joinZero_exists_suffix ": "
      (joinZero " " msg (attrsText attrs)) (errMsg c)
    simpa [errMsg] using this
  | base msg => simp [errorNoUnwrap] at h
  | nilPtr msg => simp [errorNoUnwrap] at h
  | nilSlice msg => simp [errorNoUnwrap] at h
  | emptySlice msg => simp [errorNoUnwrap] at h
  | nilMap msg => simp [errorNoUnwrap] at h
  | emptyMap msg => simp [errorNoUnwrap] at h
  | errorWrap c => simp [errorNoUnwrap] at h
  | group msg c ms => simp [errorNoUnwrap] at h
  | join ms => simp [errorNoUnwrap] at h

/-- Witness for `c6_noUnwrap_message` at a concrete input. -/
theorem c6_noUnwrap_message_witness :
    errorNoUnwrap (GErr.withMessage "a" (.base "x") 0) = some "a" ∧
    ((∃ t, errMsg (GErr.withMessage "a" (.base "x") 0) = "a" ++ t) ∧
      (msgJoinOK (GErr.withMessage "a" (.base "x") 0) = true →
        joinZero ": " "a" (causeMsg (GErr.withMessage "a" (.base "x") 0))
          = errMsg (GErr.withMessage "a" (.base "x") 0))) :=
  ⟨by decide,
    c6_noUnwrap_message (GErr.withMessage "a" (.base "x") 0) "a" (by decide)⟩

/-- The visit sequence of a member list is the concatenation of the
members' visit sequences. -/
theorem walkOrderList_append (ms1 ms2 : List (Option GErr)) :
    walkOrderList (ms1 ++ ms2) = walkOrderList ms1 ++ walkOrderList ms2 := by
  induction ms1 with
  | nil => simp [walkOrderList]
  | cons o os ih =>
    rw [List.cons_append, walkOrderList, walkOrderList, ih, List.append_assoc]

/-- C9: a nil group member contributes nothing to the walk — `WalkDeep`
on a nil error returns immediately without visiting anything — so a
group with a nil member walks exactly like the group without it, and in
particular `Find` still reaches the members after the nil. -/
theorem c9_walk_skips_nil (v : GErr → Bool) (s : String) (c : Option GErr)
    (ms1 ms2 : List (Option GErr)) :
    walkDeep v none = false ∧
    walkOrder (none : Option GErr) = [] ∧
    walkOrderList (ms1 ++ none :: ms2) = walkOrderList (ms1 ++ ms2) ∧
    walkOrder (some (.group s c (ms1 ++ none :: ms2)))
      = .group s c (ms1 ++ none :: ms2)
          :: (walkOrder c ++ walkOrderList (ms1 ++ ms2)) ∧
    findD (fun x => errMsg x == "B")
        (some (.group "g" none [some (.base "A"), none, some (.base "B")]))
      = some (.base "B") := by
  have hord : walkOrderList (ms1 ++ none :: ms2) = walkOrderList (ms1 ++ ms2) := by
    rw [walkOrderList_append, walkOrderList_append, walkOrderList]
    simp [walkOrder]
  refine ⟨by simp [walkDeep], by simp [walkOrder], hord, ?_, ?_⟩
  · rw [walkOrder]
    simp only [unwrapOne, unwrapGroup]
    rw [hord]
  · simp [findD, findL, unwrapOne, unwrapGroup, errMsg]

/-- C4: `WalkDeep` visits exactly the nodes of `walkOrder` — root first,
then the single-cause chain, then the group members in declared order —
returning true iff the visitor stops at some visited node; `Find`
returns the first node in this order satisfying the test; and on
`Join(errA, errB)` with a predicate matching only `errB`, `Find` returns
exactly `errB`. -/
theorem c4_walk_order_and_find (v t : GErr → Bool) (o oo : Option GErr)
    (e : GErr) (os : List (Option GErr)) :
    walkDeep v o = (walkOrder o).any v ∧
    findD t o = (walkOrder o).find? t ∧
    walkOrder (some e)
      = e :: (walkOrder (unwrapOne e) ++ walkOrderList (unwrapGroup e)) ∧
    walkOrder (none : Option GErr) = [] ∧
    walkOrderList (oo :: os) = walkOrder oo ++ walkOrderList os ∧
    findD (fun x => errMsg x == "B")
        (goJoin [some (.base "A"), some (.base "B")])
      = some (.base "B") := by
  refine ⟨walkDeep_eq_any v o, findD_eq_find? t o, by rw [walkOrder],
    by simp [walkOrder], by rw [walkOrderList], ?_⟩
  simp [goJoin, findD, findL, unwrapOne, unwrapGroup, errMsg, errMsgList]
  decide

/-- Attribute counts are unaffected by overwriting the record message. -/
theorem recLen_map_message (x : Option SRecord) (y : String) :
    recLen (x.map (fun r => { r with message := y })) = recLen x := by
  cases x <;> simp [recLen]

/-- Presence of a record is unaffected by overwriting its message. -/
theorem isSome_map_message (x : Option SRecord) (y : String) :
    (x.map (fun r => { r with message := y })).isSome = x.isSome := by
  cases x <;> simp

/-- C5: `SlogRecord` returns a record iff some node of the walk provides
one, the merged record's attribute count is the sum of the providers'
attribute counts, and in particular a structured leaf with 2 attributes
wrapped by a structured wrapper with 2 more attributes yields 4. -/
theorem c5_slogRecord_merge (o : Option GErr) :
    ((slogRecordF o).isSome
        = (walkOrder o).any (fun n => (getSlogRecord n).isSome)) ∧
    recLen (slogRecordF o) = ((walkOrder o).map recContrib).sum ∧
    recLen (slogRecordF (goWraps 1 "structured2" [⟨"key","value"⟩, ⟨"int","3"⟩]
      (goWraps 0 "cause1" [⟨"key","value"⟩, ⟨"int","1"⟩]
        (some (.base ""))))) = 4 := by
  have key : ∀ oo : Option GErr,
      ((slogRecordF oo).isSome
          = (walkOrder oo).any (fun n => (getSlogRecord n).isSome)) ∧
      recLen (slogRecordF oo) = ((walkOrder oo).map recContrib).sum := by
    intro oo
    have h := foldl_slogVisit_record (walkOrder oo) ⟨"", false, none⟩
    constructor
    · simp only [slogRecordF]
      rw [slogWalk_eq_foldl, isSome_map_message, h.2]
      simp
    · simp only [slogRecordF]
      rw [slogWalk_eq_foldl, recLen_map_message, h.1]
      simp [recLen]
  refine ⟨(key o).1, (key o).2, ?_⟩
  rw [(key _).2]
  simp [goWraps, walkOrder, walkOrderList, unwrapOne, unwrapGroup,
    recContrib, getSlogRecord, recLen]

/-- C8: the behaviour of `IsNil` on the reflective shapes named by the
claim: true for literal nil, boxed nil pointer, nil slice, empty slice,
nil/empty map; false for non-nil pointers, non-empty slices and plain
concrete values; but on an (empty) array value the code panics inside
`reflect.Value.IsNil` instead of returning true, contradicting its own
documentation. -/
theorem c8_isNil_reflect :
    goIsNilReflect none = .ok true ∧
    goIsNilReflect (some (.ptr true)) = .ok true ∧
    goIsNilReflect (some (.slice true 0)) = .ok true ∧
    goIsNilReflect (some (.slice false 0)) = .ok true ∧
    goIsNilReflect (some (.mapV true 0)) = .ok true ∧
    goIsNilReflect (some (.mapV false 0)) = .ok true ∧
    goIsNilReflect (some (.ptr false)) = .ok false ∧
    goIsNilReflect (some (.slice false 3)) = .ok false ∧
    goIsNilReflect (some .other) = .ok false ∧
    goIsNilReflect (some (.array 0))
      = .error "reflect: call of reflect.Value.IsNil on array Value" :=
  ⟨rfl, rfl, rfl, rfl, rfl, rfl, rfl, rfl, rfl, rfl⟩

/-- C10: `WrapInPlace` returns false and changes nothing on nil input or
when no `ErrorWrapper` is reachable in the chain; otherwise it returns
true and afterwards the first reachable holder's inner error is `wrap`
of the previously held inner error, with the outer constructor (and the
holder itself) unchanged. -/
theorem c10_wrapInPlace_spec (f : GErr → GErr) (e : GErr) :
    goWrapInPlace f none = (false, none) ∧
    (hasEW e = false → goWrapInPlace f (some e) = (false, some e)) ∧
    (hasEW e = true →
      ∃ e2, goWrapInPlace f (some e) = (true, some e2) ∧
        ctorTag e2 = ctorTag e ∧
        firstEWInner e2 = (firstEWInner e).map f) := by
  have hs := asWrapErr_spec f e
  refine ⟨rfl, ?_, ?_⟩
  · intro h
    have hnone : asWrapErr f e = none := by
      have h1 := hs.1
      rw [h] at h1
      exact Option.not_isSome_iff_eq_none.mp (by simp [h1])
    simp [goWrapInPlace, hnone]
  · intro h
    have hsome : (asWrapErr f e).isSome = true := by rw [hs.1, h]
    obtain ⟨e2, he2⟩ := Option.isSome_iff_exists.mp hsome
    have hp := hs.2.2 e2 he2
    exact ⟨e2, by simp [goWrapInPlace, he2], hp.1, hp.2⟩

/-- Witness for `c10_wrapInPlace_spec` at a concrete input. -/
theorem c10_wrapInPlace_spec_witness :
    hasEW (GErr.errorWrap (.base "u")) = true ∧
    ∃ e2, goWrapInPlace (fun x => GErr.withMessage "w" x 7)
        (some (GErr.errorWrap (.base "u"))) = (true, some e2) ∧
      ctorTag e2 = ctorTag (GErr.errorWrap (.base "u")) ∧
      firstEWInner e2
        = (firstEWInner (GErr.errorWrap (.base "u"))).map
            (fun x => GErr.withMessage "w" x 7) :=
  ⟨by decide, (c10_wrapInPlace_spec (fun x => GErr.withMessage "w" x 7)
      (GErr.errorWrap (.base "u"))).2.2 (by decide)⟩

end GoErrors
